import Mathlib

/-!
Shallow embedding of the image-preparation pipeline of the repository
(src/scripts/utils.py, src/scripts/inpainting_pipeline.py,
src/api/models/painting.py), together with theorems settling the frozen
claims about the Canvas Compositor (`ImageAugmentation.extend_image`),
the Mask Inverter (`ImageAugmentation.invert_mask`), the Subject Locator
step of `ImageAugmentation.generate_mask_from_bbox`, and the Inpainting
Invoker wrapper (`AutoPaintingPipeline.run_inference`).

Numeric conventions of the embedding: Python ints are `ℤ` (image sizes,
once read from a PIL image, are `ℕ`), Python float arithmetic on the
small values occurring here is modelled exactly by `ℚ`, `int(...)`
truncation toward zero is `pytrunc`, and Python's floor division `//`
is `Int.fdiv`.  Python exceptions are the constructors of `PyErr`;
a call that can raise returns `Except PyErr _`.
-/

/-- Errors observable from the modelled code paths.  The first three are
the Python exceptions the source can actually raise on the modelled
lines; the last three are the error kinds named by the specification
(no code in the repository defines or raises them — they are included
so the spec's error-handling claims can be stated and compared). -/
inductive PyErr where
  | zeroDivisionError
  | valueError
  | indexError
  | noDetection
  | invalidDimensions
  | dimensionMismatch
deriving DecidableEq

/-- A PIL image: a color mode (PIL encodes modes as strings, e.g. "RGB"
or "L"), pixel dimensions, and a total pixel function returning a color
triple (for single-channel modes the channels coincide; only the
dimensions, the mode and the region contents matter to the claims). -/
structure Img where
  mode : String
  width : Nat
  height : Nat
  px : Nat → Nat → Nat × Nat × Nat

/-- The fill color "white" of `Image.new("RGB", ..., "white")`. -/
def white : Nat × Nat × Nat := (255, 255, 255)

/-- Python `int(q)`: truncation toward zero. -/
def pytrunc (q : ℚ) : ℤ := if 0 ≤ q then ⌊q⌋ else ⌈q⌉

/-- PIL `Image.resize((w, h))` once the size check has passed: the output
has exactly the requested dimensions and the source's mode; pixel content
comes from resampling the source (the library's interpolation kernel is
external collaborator behavior — it is modelled as nearest sampling, and
no claim depends on the interior content). -/
def resample (image : Img) (w h : Nat) : Img :=
  ⟨image.mode, w, h, fun i j => image.px (i * image.width / w) (j * image.height / h)⟩

/-- PIL `Image.new("RGB", (w, h), "white")` once the size check has
passed (negative requested sizes raise ValueError, checked at the call
site in `extend_image`). -/
def canvasRGB (w h : ℤ) : Img :=
  ⟨"RGB", w.toNat, h.toNat, fun _ _ => white⟩

/-- PIL `dest.paste(src, (x, y))`: pixels of `src` land at offset
`(x, y)`, clipped to the destination; the destination keeps its mode and
dimensions, and every destination pixel outside the pasted rectangle is
unchanged. -/
def paste (dest src : Img) (x y : ℤ) : Img :=
  ⟨dest.mode, dest.width, dest.height, fun i j =>
    if x ≤ (i : ℤ) ∧ (i : ℤ) < x + src.width ∧ y ≤ (j : ℤ) ∧ (j : ℤ) < y + src.height
    then src.px ((i : ℤ) - x).toNat ((j : ℤ) - y).toNat
    else dest.px i j⟩

/-- The configuration state of `ImageAugmentation` (src/scripts/utils.py,
lines 54-57). -/
structure ImageAugmentation where
  target_width : ℤ
  target_height : ℤ
  roi_scale : ℚ

/-- The constructor signature
`def __init__(self, target_width, target_height, roi_scale=0.6)`
(src/scripts/utils.py line 54): `roi_scale` is optional and defaults to
0.6 when the caller omits it. -/
def imageAugmentationInit (target_width target_height : ℤ)
    (roi_scale : Option ℚ) : ImageAugmentation :=
  ⟨target_width, target_height, roi_scale.getD (6 / 10)⟩

/-- Line 64: `scale = min(self.target_width / original_width,
self.target_height / original_height)` (Python float division). -/
def scaleOf (cfg : ImageAugmentation) (ow oh : ℕ) : ℚ :=
  min ((cfg.target_width : ℚ) / ow) ((cfg.target_height : ℚ) / oh)

/-- Line 65: `new_width = int(original_width * scale * self.roi_scale)`. -/
def new_width (cfg : ImageAugmentation) (ow oh : ℕ) : ℤ :=
  pytrunc (ow * scaleOf cfg ow oh * cfg.roi_scale)

/-- Line 66: `new_height = int(original_height * scale * self.roi_scale)`. -/
def new_height (cfg : ImageAugmentation) (ow oh : ℕ) : ℤ :=
  pytrunc (oh * scaleOf cfg ow oh * cfg.roi_scale)

/-- Line 69: `paste_x = (self.target_width - new_width) // 2`. -/
def paste_x (cfg : ImageAugmentation) (ow oh : ℕ) : ℤ :=
  Int.fdiv (cfg.target_width - new_width cfg ow oh) 2

/-- Line 70: `paste_y = (self.target_height - new_height) // 2`. -/
def paste_y (cfg : ImageAugmentation) (ow oh : ℕ) : ℤ :=
  Int.fdiv (cfg.target_height - new_height cfg ow oh) 2

/-- `ImageAugmentation.extend_image` (src/scripts/utils.py lines 59-72).
The three guards are the failure points of the Python body, in
evaluation order: the divisions on line 64 raise ZeroDivisionError when
an original dimension is 0; `image.resize` on line 67 raises ValueError
for a negative requested size; `Image.new` on line 68 raises ValueError
for a negative canvas size.  No other check exists in the source. -/
def extend_image (cfg : ImageAugmentation) (image : Img) : Except PyErr Img :=
  if image.width = 0 ∨ image.height = 0 then
    Except.error PyErr.zeroDivisionError
  else if new_width cfg image.width image.height < 0 ∨
      new_height cfg image.width image.height < 0 then
    Except.error PyErr.valueError
  else if cfg.target_width < 0 ∨ cfg.target_height < 0 then
    Except.error PyErr.valueError
  else
    Except.ok (paste (canvasRGB cfg.target_width cfg.target_height)
      (resample image (new_width cfg image.width image.height).toNat
        (new_height cfg image.width image.height).toNat)
      (paste_x cfg image.width image.height)
      (paste_y cfg image.width image.height))

/-- Observation helper: the `(width, height)` of a successful result. -/
def resultSize : Except PyErr Img → Option (ℤ × ℤ)
  | Except.ok i => some ((i.width : ℤ), (i.height : ℤ))
  | Except.error _ => none

/-- Modelled from the spec: the Canvas Compositor contract of spec
section 4.1, written from the spec's own words ("scale =
min(target_width/orig_w, target_height/orig_h)", "new_w = orig_w * scale
* roi_scale ... integer-truncated", "offset = ((target_width - new_w)/2,
(target_height - new_h)/2), integer-truncated", white canvas, centered
paste), to be compared against `extend_image`. -/
def extend_spec (cfg : ImageAugmentation) (image : Img) : Img :=
  let scale : ℚ :=
    min ((cfg.target_width : ℚ) / image.width) ((cfg.target_height : ℚ) / image.height)
  let nw : ℤ := pytrunc (image.width * scale * cfg.roi_scale)
  let nh : ℤ := pytrunc (image.height * scale * cfg.roi_scale)
  paste (canvasRGB cfg.target_width cfg.target_height)
    (resample image nw.toNat nh.toNat)
    (pytrunc (((cfg.target_width : ℚ) - (nw : ℚ)) / 2))
    (pytrunc (((cfg.target_height : ℚ) - (nh : ℚ)) / 2))

/-- A single-channel (luminance) mask image: dimensions and a total
pixel function; 8-bit encoding (values ≤ 255) is stated as a hypothesis
where a claim needs it. -/
structure MaskImg where
  width : Nat
  height : Nat
  px : Nat → Nat → Nat

/-- PIL `mask_image.convert("L")` on a single-channel mask: converting a
luminance image to "L" copies it unchanged. -/
def convertL (m : MaskImg) : MaskImg := m

/-- `ImageAugmentation.invert_mask` (src/scripts/utils.py lines 104-111):
`ImageOps.invert(mask_image.convert("L"))`, replacing each 8-bit pixel
value v by 255 - v. -/
def invert_mask (mask_image : MaskImg) : MaskImg :=
  let l := convertL mask_image
  ⟨l.width, l.height, fun i j => 255 - l.px i j⟩

/-- A detection box in xyxy coordinates, as a Python float 4-list
(`results[0].boxes.xyxy.tolist()` elements). -/
abbrev BBox := ℚ × ℚ × ℚ × ℚ

/-- The bounding-box selection step of
`ImageAugmentation.generate_mask_from_bbox` (src/scripts/utils.py lines
88-100).  The YOLO detector and the SAM segmenter are external
collaborators, passed as functions: `det` is line 88-89 (`results =
yolo(image); bboxes = results[0].boxes.xyxy.tolist()`), `sam` is the
processor/model call of lines 91-99 applied to the image and one box.
Line 90 (`input_boxes = [[[bboxes[0]]]]`) indexes `bboxes[0]`: on an
empty detection list Python raises IndexError. -/
def generate_mask_from_bbox (image : Img) (det : Img → List BBox)
    (sam : Img → BBox → MaskImg) : Except PyErr MaskImg :=
  match det image with
  | [] => Except.error PyErr.indexError
  | b :: _ => Except.ok (sam image b)

/-- The keyword arguments `AutoPaintingPipeline.run_inference` passes to
the diffusers pipeline call (src/scripts/inpainting_pipeline.py lines
33-44, HEAD side of the merge conflict). -/
structure InpaintArgs where
  prompt : String
  negative_prompt : String
  image : Img
  mask_image : Img
  num_inference_steps : ℕ
  strength : ℚ
  guidance_scale : ℚ
  num_images_per_prompt : ℕ
  height : ℤ
  width : ℤ

/-- The state of `AutoPaintingPipeline` (src/scripts/inpainting_pipeline.py
lines 23-29).  The diffusers inpainting pipeline is an external
collaborator: a function from the call's keyword arguments to its
`.images` list. -/
structure AutoPaintingPipeline where
  pipeline : InpaintArgs → List Img
  image : Img
  mask_image : Img
  target_width : ℤ
  target_height : ℤ

/-- Python `(...).images[0]`: the first element, IndexError when the
list is empty. -/
def firstImage : List Img → Except PyErr Img
  | [] => Except.error PyErr.indexError
  | o :: _ => Except.ok o

/-- `AutoPaintingPipeline.run_inference` (src/scripts/inpainting_pipeline.py
lines 32-45, HEAD side): it calls the stored pipeline on the stored
image and mask with the supplied sampling parameters and returns
`.images[0]`.  The body contains no check of any kind before the call. -/
def run_inference (s : AutoPaintingPipeline) (prompt negative_prompt : String)
    (num_inference_steps : ℕ) (strength guidance_scale : ℚ)
    (num_images : ℕ) : Except PyErr Img :=
  firstImage (s.pipeline
    ⟨prompt, negative_prompt, s.image, s.mask_image, num_inference_steps,
      strength, guidance_scale, num_images, s.target_height, s.target_width⟩)

/-- The parameter list of `ImageAugmentation.__init__`
(src/scripts/utils.py line 54) with each parameter's default value:
`none` marks a parameter the caller must supply. -/
def imageAugmentationParams : List (String × Option ℚ) :=
  [("target_width", none), ("target_height", none), ("roi_scale", some (6 / 10))]

/-- The parameter list of `AutoPaintingPipeline.run_inference`
(src/scripts/inpainting_pipeline.py line 32, HEAD side): every sampling
option is a required positional parameter with no default. -/
def runInferenceParams : List (String × Option ℚ) :=
  [("prompt", none), ("negative_prompt", none), ("num_inference_steps", none),
    ("strength", none), ("guidance_scale", none), ("num_images", none)]

/-- The configuration options the `inference` entry point reads from its
hydra config (src/scripts/inpainting_pipeline.py lines 68-97, HEAD
side): plain `cfg.<name>` accesses, which have no default. -/
def inferenceConfigParams : List (String × Option ℚ) :=
  [("model", none), ("target_width", none), ("target_height", none),
    ("prompt", none), ("negative_prompt", none), ("num_inference_steps", none),
    ("strength", none), ("guidance_scale", none),
    ("segmentation_model", none), ("detection_model", none)]

/-- Line 73 of src/scripts/inpainting_pipeline.py:
`ImageAugmentation(target_width=cfg.target_width,
target_height=cfg.target_height)` — the call omits `roi_scale`. -/
def inferenceAugmenter (tw th : ℤ) : ImageAugmentation :=
  imageAugmentationInit tw th none

/-! ### Shared concrete instances used by witnesses and counterexamples -/

/-- A concrete 800 by 600 RGB image (the spec's scenario input size). -/
def imgA : Img := ⟨"RGB", 800, 600, fun _ _ => white⟩

/-- A concrete 1 by 1 single-channel image. -/
def imgB : Img := ⟨"L", 1, 1, fun _ _ => (7, 7, 7)⟩

/-- A concrete 4 by 4 RGB image. -/
def img4 : Img := ⟨"RGB", 4, 4, fun _ _ => white⟩

/-- A concrete 3 by 7 RGB image. -/
def img37 : Img := ⟨"RGB", 3, 7, fun _ _ => white⟩

/-- A concrete 2 by 2 mask with constant value 100. -/
def maskA : MaskImg := ⟨2, 2, fun _ _ => 100⟩

/-- A detector stub returning no boxes. -/
def detNone : Img → List BBox := fun _ => []

/-- A segmenter stub. -/
def samStub : Img → BBox → MaskImg := fun _ _ => ⟨1, 1, fun _ _ => 0⟩

/-- An external inpainting model stub returning one image. -/
def pipeStub : InpaintArgs → List Img := fun _ => [imgA]

/-- A concrete pipeline state whose image (800 by 600) and mask (3 by 3)
have mismatched dimensions. -/
def apState : AutoPaintingPipeline := ⟨pipeStub, imgA, ⟨"L", 3, 3, fun _ _ => white⟩, 1024, 1024⟩

/-! ### Helper lemmas -/

/-- `firstImage` only produces `Except.ok` or an IndexError. -/
theorem firstImage_ne_mismatch (l : List Img) :
    firstImage l ≠ Except.error PyErr.dimensionMismatch := by
  cases l <;> simp [firstImage]

/-! ### C2 -/

/-- C2: for every mask and every pixel within it, the pixel value of the
inverted mask equals 255 minus the original pixel value, under 8-bit
luminance encoding (pixel values at most 255). -/
theorem invert_mask_pixelwise (m : MaskImg) (x y : ℕ)
    (hx : x < m.width) (hy : y < m.height) (h8 : m.px x y ≤ 255) :
    ((invert_mask m).px x y : ℤ) = 255 - (m.px x y : ℤ) := by
  simp only [invert_mask, convertL]
  omega

/-- Witness for C2 at the concrete mask `maskA` and pixel (0, 0). -/
theorem invert_mask_pixelwise_w :
    ((invert_mask maskA).px 0 0 : ℤ) = 255 - (maskA.px 0 0 : ℤ) :=
  invert_mask_pixelwise maskA 0 0 (by decide) (by decide) (by decide)

/-! ### C7 -/

/-- C7: inverting a mask twice returns the original mask exactly — the
dimensions are unchanged and every pixel within the mask regains its
original 8-bit value. -/
theorem invert_mask_involution (m : MaskImg)
    (h8 : ∀ i j, i < m.width → j < m.height → m.px i j ≤ 255) :
    (invert_mask (invert_mask m)).width = m.width ∧
    (invert_mask (invert_mask m)).height = m.height ∧
    ∀ i j, i < m.width → j < m.height →
      (invert_mask (invert_mask m)).px i j = m.px i j := by
  refine ⟨rfl, rfl, fun i j hi hj => ?_⟩
  have h := h8 i j hi hj
  simp only [invert_mask, convertL]
  omega

/-- Witness for C7 at the concrete mask `maskA`. -/
theorem invert_mask_involution_w :
    (invert_mask (invert_mask maskA)).px 1 1 = maskA.px 1 1 :=
  (invert_mask_involution maskA (fun i j _ _ => by norm_num [maskA])).2.2 1 1
    (by decide) (by decide)

/-! ### C5 -/

/-- C5 (amended): when the detector returns zero boxes, the pipeline
fails — `bboxes[0]` raises an IndexError — rather than returning an
empty or default bounding box; no NoDetection error kind exists in the
code. -/
theorem locate_empty_raises_index_error (image : Img) (det : Img → List BBox)
    (sam : Img → BBox → MaskImg) (h : det image = []) :
    generate_mask_from_bbox image det sam = Except.error PyErr.indexError := by
  simp [generate_mask_from_bbox, h]

/-- Witness for C5 at a concrete image and zero-box detector. -/
theorem locate_empty_raises_index_error_w :
    generate_mask_from_bbox imgA detNone samStub = Except.error PyErr.indexError :=
  locate_empty_raises_index_error imgA detNone samStub rfl

/-- C5 counterexample: on a zero-detection input the operation's error is
the IndexError of `bboxes[0]`, not a NoDetection error as the claim
states. -/
theorem locate_empty_cex :
    generate_mask_from_bbox imgA detNone samStub = Except.error PyErr.indexError ∧
    generate_mask_from_bbox imgA detNone samStub ≠ Except.error PyErr.noDetection := by
  constructor
  · simp [generate_mask_from_bbox, detNone]
  · simp [generate_mask_from_bbox, detNone]

/-! ### C6 -/

/-- C6 (amended): `run_inference` performs no dimension comparison: even
when the stored image and mask have different pixel dimensions, it
invokes the external inpainting pipeline on them unconditionally and
returns its first output, and it never produces a DimensionMismatch
error. -/
theorem run_inference_no_check (s : AutoPaintingPipeline)
    (prompt negative_prompt : String) (num_inference_steps : ℕ)
    (strength guidance_scale : ℚ) (num_images : ℕ)
    (hmis : (s.image.width, s.image.height) ≠ (s.mask_image.width, s.mask_image.height)) :
    run_inference s prompt negative_prompt num_inference_steps strength
        guidance_scale num_images =
      firstImage (s.pipeline ⟨prompt, negative_prompt, s.image, s.mask_image,
        num_inference_steps, strength, guidance_scale, num_images,
        s.target_height, s.target_width⟩) ∧
    run_inference s prompt negative_prompt num_inference_steps strength
        guidance_scale num_images ≠ Except.error PyErr.dimensionMismatch :=
  ⟨rfl, firstImage_ne_mismatch _⟩

/-- Witness for C6 at the concrete mismatched state `apState`. -/
theorem run_inference_no_check_w :
    run_inference apState "p" "n" 1 1 1 1 =
      firstImage (apState.pipeline ⟨"p", "n", apState.image, apState.mask_image,
        1, 1, 1, 1, apState.target_height, apState.target_width⟩) ∧
    run_inference apState "p" "n" 1 1 1 1 ≠ Except.error PyErr.dimensionMismatch :=
  run_inference_no_check apState "p" "n" 1 1 1 1 (by decide)

/-- C6 counterexample: with the 800 by 600 image and 3 by 3 mask of
`apState` (mismatched dimensions), `run_inference` does not fail with a
DimensionMismatch error: the external model is invoked and its output
returned. -/
theorem run_inference_no_check_cex :
    run_inference apState "p" "n" 1 1 1 1 = Except.ok imgA ∧
    run_inference apState "p" "n" 1 1 1 1 ≠ Except.error PyErr.dimensionMismatch := by
  refine ⟨rfl, ?_⟩
  rw [show run_inference apState "p" "n" 1 1 1 1 = Except.ok imgA from rfl]
  simp

/-! ### C9 -/

/-- C9 (amended): every recognized configuration option of the core
pipeline is required with no default, except `roi_scale`:
`ImageAugmentation.__init__` defines the default 0.6 for it, and the
`inference` entry point constructs the augmenter without passing
`roi_scale`, relying on that default. -/
theorem config_defaults (p : String × Option ℚ) :
    (("roi_scale", some ((6 : ℚ) / 10)) ∈ imageAugmentationParams) ∧
    (p ∈ imageAugmentationParams → p.1 ≠ "roi_scale" → p.2 = none) ∧
    (p ∈ runInferenceParams → p.2 = none) ∧
    (p ∈ inferenceConfigParams → p.2 = none) ∧
    (∀ tw th : ℤ, (inferenceAugmenter tw th).roi_scale = 6 / 10) := by
  refine ⟨by simp [imageAugmentationParams], ?_, ?_, ?_, fun tw th => rfl⟩
  · intro hp hne
    simp only [imageAugmentationParams, List.mem_cons, List.not_mem_nil, or_false] at hp
    rcases hp with h | h | h <;> simp_all
  · intro hp
    simp only [runInferenceParams, List.mem_cons, List.not_mem_nil, or_false] at hp
    rcases hp with h | h | h | h | h | h <;> simp_all
  · intro hp
    simp only [inferenceConfigParams, List.mem_cons, List.not_mem_nil, or_false] at hp
    rcases hp with h | h | h | h | h | h | h | h | h | h <;> simp_all

/-- Witness for C9 at the concrete parameter `target_width` and the
concrete augmenter construction of the entry point. -/
theorem config_defaults_w :
    (("target_width", (none : Option ℚ)) : String × Option ℚ).2 = none ∧
    (inferenceAugmenter 1024 1024).roi_scale = 6 / 10 :=
  ⟨(config_defaults ("target_width", none)).2.1 (by simp [imageAugmentationParams])
      (by simp),
    (config_defaults ("target_width", none)).2.2.2.2 1024 1024⟩

/-- C9 counterexample: `roi_scale` does have a default — constructing
`ImageAugmentation` without supplying it yields 0.6, so not every
recognized option must be supplied by the caller. -/
theorem roi_scale_default_cex :
    ("roi_scale", some ((6 : ℚ) / 10)) ∈ imageAugmentationParams ∧
    (imageAugmentationInit 1024 1024 none).roi_scale = 6 / 10 :=
  ⟨by simp [imageAugmentationParams], rfl⟩

/-! ### Arithmetic helper lemmas for the compositor -/

/-- Floor of an integer halved, as a rational, is Euclidean division by 2. -/
theorem floor_cast_half (d : ℤ) : ⌊(d : ℚ) / 2⌋ = d / 2 := by
  refine Int.floor_eq_iff.mpr ⟨?_, ?_⟩
  · rw [le_div_iff₀ (by norm_num : (0:ℚ) < 2)]
    exact_mod_cast (by omega : d / 2 * 2 ≤ d)
  · rw [div_lt_iff₀ (by norm_num : (0:ℚ) < 2)]
    exact_mod_cast (by omega : d < (d / 2 + 1) * 2)

/-- On a nonnegative even split, Python truncation agrees with Python
floor division by 2. -/
theorem trunc_half (d : ℤ) (h : 0 ≤ d) : pytrunc ((d : ℚ) / 2) = Int.fdiv d 2 := by
  have h0 : (0:ℚ) ≤ (d : ℚ) / 2 := div_nonneg (by exact_mod_cast h) (by norm_num)
  simp only [pytrunc, if_pos h0]
  rw [floor_cast_half, Int.fdiv_eq_ediv _ (by norm_num)]

/-- The centering offset of the spec (truncated `(t - d)/2`) equals the
code's floor division when the pasted side fits, `d ≤ t`. -/
theorem offset_eq (t d : ℤ) (h : d ≤ t) :
    pytrunc (((t : ℚ) - (d : ℚ)) / 2) = Int.fdiv (t - d) 2 := by
  have e : (t : ℚ) - (d : ℚ) = ((t - d : ℤ) : ℚ) := by push_cast; ring
  rw [e, trunc_half _ (by omega)]

theorem scaleOf_nonneg (cfg : ImageAugmentation) (ow oh : ℕ)
    (htw : 0 ≤ cfg.target_width) (hth : 0 ≤ cfg.target_height) :
    0 ≤ scaleOf cfg ow oh :=
  le_min (div_nonneg (by exact_mod_cast htw) (Nat.cast_nonneg _))
    (div_nonneg (by exact_mod_cast hth) (Nat.cast_nonneg _))

theorem new_width_nonneg (cfg : ImageAugmentation) (ow oh : ℕ)
    (htw : 0 ≤ cfg.target_width) (hth : 0 ≤ cfg.target_height)
    (hr : 0 ≤ cfg.roi_scale) : 0 ≤ new_width cfg ow oh := by
  have hq : (0:ℚ) ≤ (ow : ℚ) * scaleOf cfg ow oh * cfg.roi_scale :=
    mul_nonneg (mul_nonneg (Nat.cast_nonneg _) (scaleOf_nonneg cfg ow oh htw hth)) hr
  simp only [new_width, pytrunc, if_pos hq]
  exact Int.floor_nonneg.mpr hq

theorem new_height_nonneg (cfg : ImageAugmentation) (ow oh : ℕ)
    (htw : 0 ≤ cfg.target_width) (hth : 0 ≤ cfg.target_height)
    (hr : 0 ≤ cfg.roi_scale) : 0 ≤ new_height cfg ow oh := by
  have hq : (0:ℚ) ≤ (oh : ℚ) * scaleOf cfg ow oh * cfg.roi_scale :=
    mul_nonneg (mul_nonneg (Nat.cast_nonneg _) (scaleOf_nonneg cfg ow oh htw hth)) hr
  simp only [new_height, pytrunc, if_pos hq]
  exact Int.floor_nonneg.mpr hq

/-- With `roi_scale ≤ 1` the truncated width never exceeds the target
width. -/
theorem new_width_le_target (cfg : ImageAugmentation) (ow oh : ℕ) (how : 0 < ow)
    (htw : 0 ≤ cfg.target_width) (hth : 0 ≤ cfg.target_height)
    (hr0 : 0 ≤ cfg.roi_scale) (hr1 : cfg.roi_scale ≤ 1) :
    new_width cfg ow oh ≤ cfg.target_width := by
  have how' : ((ow : ℚ)) ≠ 0 := Nat.cast_ne_zero.mpr how.ne'
  have hsc : scaleOf cfg ow oh ≤ (cfg.target_width : ℚ) / ow := min_le_left _ _
  have h0 : (0:ℚ) ≤ (ow : ℚ) * scaleOf cfg ow oh :=
    mul_nonneg (Nat.cast_nonneg _) (scaleOf_nonneg cfg ow oh htw hth)
  have h1 : (ow : ℚ) * scaleOf cfg ow oh * cfg.roi_scale ≤ (ow : ℚ) * scaleOf cfg ow oh :=
    mul_le_of_le_one_right h0 hr1
  have h2 : (ow : ℚ) * scaleOf cfg ow oh ≤ (ow : ℚ) * ((cfg.target_width : ℚ) / ow) :=
    mul_le_mul_of_nonneg_left hsc (Nat.cast_nonneg _)
  have h3 : (ow : ℚ) * ((cfg.target_width : ℚ) / ow) = (cfg.target_width : ℚ) := by
    field_simp
  have hq : (ow : ℚ) * scaleOf cfg ow oh * cfg.roi_scale ≤ (cfg.target_width : ℚ) := by
    linarith
  have hnn : (0:ℚ) ≤ (ow : ℚ) * scaleOf cfg ow oh * cfg.roi_scale := mul_nonneg h0 hr0
  simp only [new_width, pytrunc, if_pos hnn]
  calc ⌊(ow : ℚ) * scaleOf cfg ow oh * cfg.roi_scale⌋
      ≤ ⌊(cfg.target_width : ℚ)⌋ := Int.floor_le_floor hq
    _ = cfg.target_width := Int.floor_intCast _

theorem new_height_le_target (cfg : ImageAugmentation) (ow oh : ℕ) (hoh : 0 < oh)
    (htw : 0 ≤ cfg.target_width) (hth : 0 ≤ cfg.target_height)
    (hr0 : 0 ≤ cfg.roi_scale) (hr1 : cfg.roi_scale ≤ 1) :
    new_height cfg ow oh ≤ cfg.target_height := by
  have hoh' : ((oh : ℚ)) ≠ 0 := Nat.cast_ne_zero.mpr hoh.ne'
  have hsc : scaleOf cfg ow oh ≤ (cfg.target_height : ℚ) / oh := min_le_right _ _
  have h0 : (0:ℚ) ≤ (oh : ℚ) * scaleOf cfg ow oh :=
    mul_nonneg (Nat.cast_nonneg _) (scaleOf_nonneg cfg ow oh htw hth)
  have h1 : (oh : ℚ) * scaleOf cfg ow oh * cfg.roi_scale ≤ (oh : ℚ) * scaleOf cfg ow oh :=
    mul_le_of_le_one_right h0 hr1
  have h2 : (oh : ℚ) * scaleOf cfg ow oh ≤ (oh : ℚ) * ((cfg.target_height : ℚ) / oh) :=
    mul_le_mul_of_nonneg_left hsc (Nat.cast_nonneg _)
  have h3 : (oh : ℚ) * ((cfg.target_height : ℚ) / oh) = (cfg.target_height : ℚ) := by
    field_simp
  have hq : (oh : ℚ) * scaleOf cfg ow oh * cfg.roi_scale ≤ (cfg.target_height : ℚ) := by
    linarith
  have hnn : (0:ℚ) ≤ (oh : ℚ) * scaleOf cfg ow oh * cfg.roi_scale := mul_nonneg h0 hr0
  simp only [new_height, pytrunc, if_pos hnn]
  calc ⌊(oh : ℚ) * scaleOf cfg ow oh * cfg.roi_scale⌋
      ≤ ⌊(cfg.target_height : ℚ)⌋ := Int.floor_le_floor hq
    _ = cfg.target_height := Int.floor_intCast _

/-- On valid inputs the compositor takes its success path. -/
theorem extend_image_ok (cfg : ImageAugmentation) (image : Img)
    (hw : 0 < image.width) (hh : 0 < image.height)
    (htw : 0 ≤ cfg.target_width) (hth : 0 ≤ cfg.target_height)
    (hr : 0 ≤ cfg.roi_scale) :
    extend_image cfg image =
      Except.ok (paste (canvasRGB cfg.target_width cfg.target_height)
        (resample image (new_width cfg image.width image.height).toNat
          (new_height cfg image.width image.height).toNat)
        (paste_x cfg image.width image.height)
        (paste_y cfg image.width image.height)) := by
  have hnw := new_width_nonneg cfg image.width image.height htw hth hr
  have hnh := new_height_nonneg cfg image.width image.height htw hth hr
  unfold extend_image
  rw [if_neg (by omega), if_neg (by omega), if_neg (by omega)]

/-! ### C1 -/

/-- C1: for every image with positive dimensions and every configuration
with positive targets and roi_scale in (0, 1], the extend operation
returns an image whose dimensions are exactly (target_width,
target_height). -/
theorem extend_image_target_size (cfg : ImageAugmentation) (image : Img)
    (hw : 0 < image.width) (hh : 0 < image.height)
    (htw : 0 < cfg.target_width) (hth : 0 < cfg.target_height)
    (hr0 : 0 < cfg.roi_scale) (hr1 : cfg.roi_scale ≤ 1) :
    resultSize (extend_image cfg image) =
      some (cfg.target_width, cfg.target_height) := by
  rw [extend_image_ok cfg image hw hh htw.le hth.le hr0.le]
  simp [resultSize, paste, canvasRGB, Int.toNat_of_nonneg htw.le,
    Int.toNat_of_nonneg hth.le]

/-- Witness for C1: the spec's scenario, an 800 by 600 image into a
1024 by 1024 canvas at roi_scale 0.6. -/
theorem extend_image_target_size_w :
    resultSize (extend_image ⟨1024, 1024, 6 / 10⟩ imgA) = some (1024, 1024) :=
  extend_image_target_size ⟨1024, 1024, 6 / 10⟩ imgA (by decide) (by decide)
    (by decide) (by decide) (by norm_num) (by norm_num)

/-! ### C8 -/

/-- C8 (amended): on positive dimensions with roi_scale in (0, 1] the
pasted region lies entirely within the target canvas (no cropping), and
the aspect ratio is preserved by the real-valued resized dimensions
before integer truncation; exact equality of new_width/new_height with
the original ratio can fail after truncation. -/
theorem extend_image_no_cropping (cfg : ImageAugmentation) (image : Img)
    (hw : 0 < image.width) (hh : 0 < image.height)
    (htw : 0 < cfg.target_width) (hth : 0 < cfg.target_height)
    (hr0 : 0 < cfg.roi_scale) (hr1 : cfg.roi_scale ≤ 1) :
    (0 ≤ paste_x cfg image.width image.height ∧
     paste_x cfg image.width image.height +
       new_width cfg image.width image.height ≤ cfg.target_width ∧
     0 ≤ paste_y cfg image.width image.height ∧
     paste_y cfg image.width image.height +
       new_height cfg image.width image.height ≤ cfg.target_height) ∧
    ((image.width : ℚ) * scaleOf cfg image.width image.height * cfg.roi_scale) /
        ((image.height : ℚ) * scaleOf cfg image.width image.height * cfg.roi_scale) =
      (image.width : ℚ) / (image.height : ℚ) := by
  have hnw := new_width_nonneg cfg image.width image.height htw.le hth.le hr0.le
  have hnh := new_height_nonneg cfg image.width image.height htw.le hth.le hr0.le
  have hlw := new_width_le_target cfg image.width image.height hw htw.le hth.le hr0.le hr1
  have hlh := new_height_le_target cfg image.width image.height hh htw.le hth.le hr0.le hr1
  constructor
  · unfold paste_x paste_y
    rw [Int.fdiv_eq_ediv _ (by norm_num), Int.fdiv_eq_ediv _ (by norm_num)]
    omega
  · have hsp : 0 < scaleOf cfg image.width image.height :=
      lt_min (div_pos (by exact_mod_cast htw) (by exact_mod_cast hw))
        (div_pos (by exact_mod_cast hth) (by exact_mod_cast hh))
    rw [mul_assoc, mul_assoc]
    exact mul_div_mul_right _ _ (ne_of_gt (mul_pos hsp hr0))

/-- Witness for C8 at the spec's scenario input. -/
theorem extend_image_no_cropping_w :
    (0 ≤ paste_x ⟨1024, 1024, 6 / 10⟩ imgA.width imgA.height ∧
     paste_x ⟨1024, 1024, 6 / 10⟩ imgA.width imgA.height +
       new_width ⟨1024, 1024, 6 / 10⟩ imgA.width imgA.height ≤ (1024 : ℤ) ∧
     0 ≤ paste_y ⟨1024, 1024, 6 / 10⟩ imgA.width imgA.height ∧
     paste_y ⟨1024, 1024, 6 / 10⟩ imgA.width imgA.height +
       new_height ⟨1024, 1024, 6 / 10⟩ imgA.width imgA.height ≤ (1024 : ℤ)) ∧
    ((imgA.width : ℚ) * scaleOf ⟨1024, 1024, 6 / 10⟩ imgA.width imgA.height * (6 / 10 : ℚ)) /
        ((imgA.height : ℚ) * scaleOf ⟨1024, 1024, 6 / 10⟩ imgA.width imgA.height * (6 / 10 : ℚ)) =
      (imgA.width : ℚ) / (imgA.height : ℚ) :=
  extend_image_no_cropping ⟨1024, 1024, 6 / 10⟩ imgA (by decide) (by decide)
    (by decide) (by decide) (by norm_num) (by norm_num)

/-- C8 counterexample: a 3 by 7 image into a 10 by 10 target at
roi_scale 1 resizes to 4 by 10, and 4/10 differs from the original
ratio 3/7 — the truncated dimensions do not preserve the aspect ratio
exactly. -/
theorem aspect_ratio_cex :
    ((new_width ⟨10, 10, 1⟩ img37.width img37.height : ℤ) : ℚ) /
        ((new_height ⟨10, 10, 1⟩ img37.width img37.height : ℤ) : ℚ) ≠
      (img37.width : ℚ) / (img37.height : ℚ) := by
  norm_num [new_width, new_height, scaleOf, pytrunc, img37]

/-! ### C4 -/

/-- C4 (amended): no InvalidDimensions error exists in the code.  Zero
original dimensions make the operation fail with the ZeroDivisionError
of the scale computation; a negative target dimension makes it fail
with the ValueError of the PIL size checks; a zero target width with
positive original dimensions does not fail at all — the operation
returns an image of width 0. -/
theorem extend_image_error_behavior (cfg : ImageAugmentation) (image : Img) :
    (image.width = 0 ∨ image.height = 0 →
      extend_image cfg image = Except.error PyErr.zeroDivisionError) ∧
    (0 < image.width → 0 < image.height →
      cfg.target_width < 0 ∨ cfg.target_height < 0 →
      extend_image cfg image = Except.error PyErr.valueError) ∧
    (0 < image.width → 0 < image.height → cfg.target_width = 0 →
      0 ≤ cfg.target_height →
      resultSize (extend_image cfg image) = some (0, cfg.target_height)) := by
  refine ⟨fun h => ?_, fun hw hh hneg => ?_, fun hw hh h0 hth => ?_⟩
  · unfold extend_image
    rw [if_pos h]
  · unfold extend_image
    rw [if_neg (by omega)]
    by_cases h2 : new_width cfg image.width image.height < 0 ∨
        new_height cfg image.width image.height < 0
    · rw [if_pos h2]
    · rw [if_neg h2, if_pos hneg]
  · have hsc : scaleOf cfg image.width image.height = 0 := by
      unfold scaleOf
      rw [h0]
      push_cast
      rw [zero_div]
      exact min_eq_left (div_nonneg (by exact_mod_cast hth) (Nat.cast_nonneg _))
    have hnw : new_width cfg image.width image.height = 0 := by
      simp [new_width, hsc, pytrunc]
    have hnh : new_height cfg image.width image.height = 0 := by
      simp [new_height, hsc, pytrunc]
    unfold extend_image
    rw [if_neg (by omega), if_neg (by omega), if_neg (by omega)]
    simp [resultSize, paste, canvasRGB, h0, Int.toNat_of_nonneg hth]

/-- Witness for C4 at three concrete inputs, one per case of the
amended claim. -/
theorem extend_image_error_behavior_w :
    extend_image ⟨5, 5, 1⟩ ⟨"RGB", 0, 3, fun _ _ => white⟩ =
      Except.error PyErr.zeroDivisionError ∧
    extend_image ⟨-1, 5, 1⟩ img4 = Except.error PyErr.valueError ∧
    resultSize (extend_image ⟨0, 7, 1⟩ img4) = some (0, 7) :=
  ⟨(extend_image_error_behavior ⟨5, 5, 1⟩ ⟨"RGB", 0, 3, fun _ _ => white⟩).1 (Or.inl rfl),
   (extend_image_error_behavior ⟨-1, 5, 1⟩ img4).2.1 (by decide) (by decide)
     (Or.inl (by decide)),
   (extend_image_error_behavior ⟨0, 7, 1⟩ img4).2.2 (by decide) (by decide) rfl
     (by decide)⟩

/-- C4 counterexample: at the non-positive target width 0 with a 4 by 4
input image the operation does not fail with an InvalidDimensions error
as the claim states — it succeeds and returns a 0 by 10 image. -/
theorem extend_image_error_behavior_cex :
    resultSize (extend_image ⟨0, 10, 1⟩ img4) = some (0, 10) ∧
    extend_image ⟨0, 10, 1⟩ img4 ≠ Except.error PyErr.invalidDimensions := by
  have h : resultSize (extend_image ⟨0, 10, 1⟩ img4) = some (0, 10) := by
    norm_num [extend_image, new_width, new_height, scaleOf, pytrunc, resultSize,
      canvasRGB, paste, img4]
  refine ⟨h, fun hc => ?_⟩
  rw [hc] at h
  simp [resultSize] at h

/-! ### C10 -/

/-- C10: whenever the extend operation returns an image, that image is
in RGB mode and every pixel outside the pasted rectangle is white,
whatever the input image's color mode. -/
theorem extend_image_rgb_white_background (cfg : ImageAugmentation)
    (image out : Img) (hok : extend_image cfg image = Except.ok out) :
    out.mode = "RGB" ∧
    ∀ i j : ℕ, i < out.width → j < out.height →
      ¬(paste_x cfg image.width image.height ≤ (i : ℤ) ∧
        (i : ℤ) < paste_x cfg image.width image.height +
          ((new_width cfg image.width image.height).toNat : ℤ) ∧
        paste_y cfg image.width image.height ≤ (j : ℤ) ∧
        (j : ℤ) < paste_y cfg image.width image.height +
          ((new_height cfg image.width image.height).toNat : ℤ)) →
      out.px i j = white := by
  unfold extend_image at hok
  by_cases h1 : image.width = 0 ∨ image.height = 0
  · rw [if_pos h1] at hok
    exact absurd hok (by simp)
  rw [if_neg h1] at hok
  by_cases h2 : new_width cfg image.width image.height < 0 ∨
      new_height cfg image.width image.height < 0
  · rw [if_pos h2] at hok
    exact absurd hok (by simp)
  rw [if_neg h2] at hok
  by_cases h3 : cfg.target_width < 0 ∨ cfg.target_height < 0
  · rw [if_pos h3] at hok
    exact absurd hok (by simp)
  rw [if_neg h3] at hok
  injection hok with h
  subst h
  refine ⟨rfl, fun i j hi hj hn => ?_⟩
  simp only [paste, resample]
  rw [if_neg hn]
  rfl

/-- Witness for C10: a 1 by 1 L-mode image into a 3 by 3 target at
roi_scale 1/3 pastes a 1 by 1 region at (1, 1); the corner pixel (0, 0)
is white and the output is RGB. -/
theorem extend_image_rgb_white_background_w :
    (paste (canvasRGB 3 3) (resample imgB 1 1) 1 1).mode = "RGB" ∧
    (paste (canvasRGB 3 3) (resample imgB 1 1) 1 1).px 0 0 = white := by
  have hnw : new_width ⟨3, 3, 1 / 3⟩ imgB.width imgB.height = 1 := by
    norm_num [new_width, scaleOf, pytrunc, imgB]
  have hnh : new_height ⟨3, 3, 1 / 3⟩ imgB.width imgB.height = 1 := by
    norm_num [new_height, scaleOf, pytrunc, imgB]
  have hpx : paste_x ⟨3, 3, 1 / 3⟩ imgB.width imgB.height = 1 := by
    unfold paste_x
    rw [hnw]
    decide
  have hpy : paste_y ⟨3, 3, 1 / 3⟩ imgB.width imgB.height = 1 := by
    unfold paste_y
    rw [hnh]
    decide
  have hok : extend_image ⟨3, 3, 1 / 3⟩ imgB =
      Except.ok (paste (canvasRGB 3 3) (resample imgB 1 1) 1 1) := by
    rw [extend_image_ok ⟨3, 3, 1 / 3⟩ imgB (by decide) (by decide) (by decide)
      (by decide) (by norm_num), hnw, hnh, hpx, hpy]
    rfl
  have h := extend_image_rgb_white_background ⟨3, 3, 1 / 3⟩ imgB
    (paste (canvasRGB 3 3) (resample imgB 1 1) 1 1) hok
  refine ⟨h.1, h.2 0 0 (by decide) (by decide) ?_⟩
  rw [hpx, hpy, hnw, hnh]
  decide

/-! ### C3 -/

/-- On valid inputs the spec-side compositor contract produces exactly
the code's paste configuration: same white RGB canvas, same truncated
resize dimensions, and centering offsets whose spec-side truncation
coincides with the code's floor division. -/
theorem extend_spec_eq (cfg : ImageAugmentation) (image : Img)
    (hw : 0 < image.width) (hh : 0 < image.height)
    (htw : 0 ≤ cfg.target_width) (hth : 0 ≤ cfg.target_height)
    (hr0 : 0 ≤ cfg.roi_scale) (hr1 : cfg.roi_scale ≤ 1) :
    extend_spec cfg image =
      paste (canvasRGB cfg.target_width cfg.target_height)
        (resample image (new_width cfg image.width image.height).toNat
          (new_height cfg image.width image.height).toNat)
        (paste_x cfg image.width image.height)
        (paste_y cfg image.width image.height) := by
  have hlw : pytrunc ((image.width : ℚ) *
      min ((cfg.target_width : ℚ) / image.width) ((cfg.target_height : ℚ) / image.height) *
      cfg.roi_scale) ≤ cfg.target_width :=
    new_width_le_target cfg image.width image.height hw htw hth hr0 hr1
  have hlh : pytrunc ((image.height : ℚ) *
      min ((cfg.target_width : ℚ) / image.width) ((cfg.target_height : ℚ) / image.height) *
      cfg.roi_scale) ≤ cfg.target_height :=
    new_height_le_target cfg image.width image.height hh htw hth hr0 hr1
  simp only [extend_spec]
  rw [offset_eq _ _ hlw, offset_eq _ _ hlh]
  rfl

/-- C3: on valid inputs the compositor computes scale =
min(target_width/orig_w, target_height/orig_h), truncates new_w =
orig_w * scale * roi_scale and new_h = orig_h * scale * roi_scale,
and pastes the resized image onto the white canvas at the truncated
centered offset — exactly the spec-side contract `extend_spec`. -/
theorem extend_image_refines_spec (cfg : ImageAugmentation) (image : Img)
    (hw : 0 < image.width) (hh : 0 < image.height)
    (htw : 0 < cfg.target_width) (hth : 0 < cfg.target_height)
    (hr0 : 0 < cfg.roi_scale) (hr1 : cfg.roi_scale ≤ 1) :
    extend_image cfg image = Except.ok (extend_spec cfg image) := by
  rw [extend_image_ok cfg image hw hh htw.le hth.le hr0.le,
    extend_spec_eq cfg image hw hh htw.le hth.le hr0.le hr1]

/-- Witness for C3 at the spec's scenario configuration. -/
theorem extend_image_refines_spec_w :
    extend_image ⟨1024, 1024, 6 / 10⟩ imgA =
      Except.ok (extend_spec ⟨1024, 1024, 6 / 10⟩ imgA) :=
  extend_image_refines_spec ⟨1024, 1024, 6 / 10⟩ imgA (by decide) (by decide)
    (by decide) (by decide) (by norm_num) (by norm_num)
